import Mathlib

/-!
A shallow embedding of the action-dispatch and domain-state engine of the
`action-llm` repository: the team-management domain reducer
(`src/team-management/reducer.ts`), the domain registry
(`src/lib/registry`), the state manager (`src/lib/state`), and the action
dispatcher (`src/lib/dispatcher`).  TypeScript thrown exceptions are
embedded as `Except Err`; `async`/`await` I/O against the content store is
embedded as explicit state passing over a `Store` record with injectable
read/write faults; JavaScript objects holding teams are embedded as
association lists with JavaScript spread-update semantics.
-/

namespace ActionLLM

/-- A team record, from `src/team-management/types.ts` (`TeamState` inner
record): description, owner, member list, creation timestamp. -/
structure Team where
  description : String
  owner : String
  members : List String
  createdAt : String
deriving DecidableEq, Repr

/-- The `data` field of the team-management versioned state:
`{ teams: { [teamName: string]: Team } }`.  The JavaScript object keyed by
team name is embedded as an association list (unique keys in every state
the system builds; lookup takes the first match). -/
structure TeamData where
  teams : List (String × Team)
deriving DecidableEq, Repr

/-- Versioned state `{ schemaVersion: number, data: { teams } }` of the
team-management domain. -/
structure TeamState where
  schemaVersion : Int
  data : TeamData
deriving DecidableEq, Repr

/-- Action payload fields used by the team-management reducer.  The zod
schemas require `username`, `teamName`, `description` to be strings where
present and make `owner` optional (`z.string().optional()`); a validated
action always carries the fields its variant reads, so the embedding makes
them total and keeps `owner` optional. -/
structure ActionPayload where
  username : String
  teamName : String
  description : String
  owner : Option String
deriving DecidableEq, Repr

/-- An action `{ domain, type, payload }` from `src/lib/types`. -/
structure Action where
  domain : String
  type : String
  payload : ActionPayload
deriving DecidableEq, Repr

/-- Caller context from `src/lib/types` (`GitHubContext`); the repository
and issue identifiers play no role in the core engine and are omitted. -/
structure GitHubContext where
  username : String
  timestamp : String
deriving DecidableEq, Repr

/-- One line of `<domain>/actions.jsonl`:
`{ action, timestamp: context.timestamp, username: context.username }`. -/
structure ActionLogEntry where
  action : Action
  timestamp : String
  username : String
deriving DecidableEq, Repr

/-- Thrown JavaScript errors, by the site that raises them: `notFound` is
a 404 from the GitHub client or an `ENOENT` from `fs`; `storage` is any
other content-store fault (injected by the fault flags of `Store`);
`domainNotFound` is the registry's `Domain ${name} not found`;
`domainError` is a business-rule `Error` thrown by a reducer; `parse` is a
`JSON.parse` failure on stored content. -/
inductive Err where
  | notFound : Err
  | storage : String → Err
  | domainNotFound : String → Err
  | domainError : String → Err
  | parse : Err
deriving DecidableEq, Repr

/-- `error.message` as the dispatcher's catch block reports it. -/
def errMessage : Err → String
  | Err.notFound => "Not found"
  | Err.storage m => m
  | Err.domainNotFound n => "Domain " ++ n ++ " not found"
  | Err.domainError m => m
  | Err.parse => "Unexpected token in JSON"

/-- Lookup of `teams[teamName]` on the association-list embedding of the
teams object; `none` plays the role of JavaScript `undefined` (falsy). -/
def lookupTeam (ts : List (String × Team)) (name : String) : Option Team :=
  ts.lookup name

/-- JavaScript spread update `{ ...teams, [name]: t }`: replace the entry
if the key is present (keeping its position), otherwise append it. -/
def setTeam (ts : List (String × Team)) (name : String) (t : Team) : List (String × Team) :=
  if ts.any (fun p => p.1 = name) then
    ts.map (fun p => if p.1 = name then (name, t) else p)
  else
    ts ++ [(name, t)]

/-- `initialState` of the team-management domain:
`{ schemaVersion: 1, data: { teams: {} } }`. -/
def initialState : TeamState :=
  { schemaVersion := 1, data := { teams := [] } }

/-- JavaScript `owner || context.username` from the `CREATE_TEAM` case:
an absent owner falls back to the caller, and so does a present but empty
string, because `""` is falsy. -/
def actualOwnerOf (owner : Option String) (username : String) : String :=
  match owner with
  | none => username
  | some o => if o = "" then username else o

/-- The team-management reducer `reduce(state, action, context)` from
`src/team-management/reducer.ts`, case by case on `action.type`; thrown
`Error`s become `Except.error (Err.domainError _)`, and the final
`default` branch returns the state unchanged. -/
def reduce (state : TeamState) (action : Action) (context : GitHubContext) :
    Except Err TeamState :=
  if action.type = "ADD_TO_TEAM" then
    let username := action.payload.username
    let teamName := action.payload.teamName
    match lookupTeam state.data.teams teamName with
    | none => Except.error (Err.domainError ("Team " ++ teamName ++ " does not exist"))
    | some team =>
      if team.members.contains username then
        Except.ok state
      else
        Except.ok { state with
          data := { state.data with
            teams := setTeam state.data.teams teamName
              { team with members := team.members ++ [username] } } }
  else if action.type = "REMOVE_FROM_TEAM" then
    let username := action.payload.username
    let teamName := action.payload.teamName
    match lookupTeam state.data.teams teamName with
    | none => Except.error (Err.domainError ("Team " ++ teamName ++ " does not exist"))
    | some team =>
      if team.members.contains username then
        Except.ok { state with
          data := { state.data with
            teams := setTeam state.data.teams teamName
              { team with members := team.members.filter (fun m => m != username) } } }
      else
        Except.ok state
  else if action.type = "CREATE_TEAM" then
    let teamName := action.payload.teamName
    let description := action.payload.description
    match lookupTeam state.data.teams teamName with
    | some _ => Except.error (Err.domainError ("Team " ++ teamName ++ " already exists"))
    | none =>
      let actualOwner := actualOwnerOf action.payload.owner context.username
      Except.ok { state with
        data := { state.data with
          teams := setTeam state.data.teams teamName
            { description := description
              owner := actualOwner
              members := [actualOwner]
              createdAt := context.timestamp } } }
  else if action.type = "UPDATE_TEAM_DESCRIPTION" then
    let teamName := action.payload.teamName
    let description := action.payload.description
    match lookupTeam state.data.teams teamName with
    | none => Except.error (Err.domainError ("Team " ++ teamName ++ " does not exist"))
    | some team =>
      Except.ok { state with
        data := { state.data with
          teams := setTeam state.data.teams teamName
            { team with description := description } } }
  else
    Except.ok state

/-! ## Domain registry (`src/lib/registry`)

The entry point (`src/index.ts`) registers exactly one domain,
`team-management`, before any dispatch; the registry is read-only
afterwards, so the embedding fixes that registration. -/

/-- The domains registered at process start (`src/index.ts` registers
only `team-management`). -/
def registeredDomains : List String := ["team-management"]

/-- `DomainRegistry.hasDomain`. -/
def hasDomain (name : String) : Bool :=
  registeredDomains.contains name

/-- Whether `action.type` is one of the four variants of the
`TeamActionSchema` discriminated union; an action with the payload fields
of its variant parses exactly when its `type` tag is one of these. -/
def validTeamActionType (t : String) : Bool :=
  t = "ADD_TO_TEAM" || t = "REMOVE_FROM_TEAM" || t = "CREATE_TEAM" ||
    t = "UPDATE_TEAM_DESCRIPTION"

/-- `DomainRegistry.validateAction`: throws `Domain ... not found` for an
unregistered domain; otherwise `actionSchema.parse` yields `true` on
success and the caught `ZodError` (embedded as `false`) on schema
failure. -/
def validateAction (action : Action) : Except Err Bool :=
  if hasDomain action.domain then
    Except.ok (validTeamActionType action.type)
  else
    Except.error (Err.domainNotFound action.domain)

/-- `DomainRegistry.executeAction`: throws for an unregistered domain,
otherwise calls the domain's `reduce`, letting its errors propagate. -/
def executeAction (action : Action) (state : TeamState) (context : GitHubContext) :
    Except Err TeamState :=
  if hasDomain action.domain then
    reduce state action context
  else
    Except.error (Err.domainNotFound action.domain)

/-- `DomainRegistry.getInitialState`: throws for an unregistered domain,
otherwise returns the registered domain's `initialState`. -/
def getInitialState (name : String) : Except Err TeamState :=
  if hasDomain name then
    Except.ok initialState
  else
    Except.error (Err.domainNotFound name)

/-! ## State manager (`src/lib/state`, `StateManager`)

The content store behind the state manager (local `fs` or the GitHub
client) is embedded as a `Store`: the contents of the state and log blobs
keyed by their paths, plus four fault flags that make one kind of
read/write throw a non-not-found storage error, modelling disk or API
failures.  A missing blob throws `Err.notFound`, covering both `ENOENT`
(local) and a 404 (GitHub); the two branches of each `StateManager`
method differ only in which of the two they test, so reads and writes are
embedded once. -/

/-- Content of a stored state blob: text `JSON.parse` accepts (holding a
state value) or text it rejects. -/
inductive StateBlob where
  | good : TeamState → StateBlob
  | garbage : StateBlob
deriving DecidableEq

/-- The backing content store, with injectable faults. -/
structure Store where
  states : String → Option StateBlob
  logs : String → Option (List ActionLogEntry)
  stateReadFault : Bool
  logReadFault : Bool
  stateWriteFault : Bool
  logWriteFault : Bool

/-- `StateManager.getStatePath`: `<domain>/state.json`. -/
def getStatePath (domain : String) : String :=
  domain ++ "/state.json"

/-- `StateManager.getActionLogPath`: `<domain>/actions.jsonl`. -/
def getActionLogPath (domain : String) : String :=
  domain ++ "/actions.jsonl"

/-- Read the state blob at a path: fault flag set → storage error;
absent → not-found; otherwise the stored content. -/
def readStateBlob (store : Store) (p : String) : Except Err StateBlob :=
  if store.stateReadFault then
    Except.error (Err.storage "state read failed")
  else
    match store.states p with
    | none => Except.error Err.notFound
    | some b => Except.ok b

/-- Write the state blob at a path: fault flag set → storage error;
otherwise replace the blob's content. -/
def writeStateBlob (store : Store) (p : String) (s : TeamState) : Except Err Store :=
  if store.stateWriteFault then
    Except.error (Err.storage "state write failed")
  else
    Except.ok { store with
      states := fun q => if q = p then some (StateBlob.good s) else store.states q }

/-- Read the log blob at a path, as the sequence of entries its lines
hold in append order. -/
def readLogBlob (store : Store) (p : String) : Except Err (List ActionLogEntry) :=
  if store.logReadFault then
    Except.error (Err.storage "log read failed")
  else
    match store.logs p with
    | none => Except.error Err.notFound
    | some l => Except.ok l

/-- Write the log blob at a path. -/
def writeLogBlob (store : Store) (p : String) (l : List ActionLogEntry) : Except Err Store :=
  if store.logWriteFault then
    Except.error (Err.storage "log write failed")
  else
    Except.ok { store with
      logs := fun q => if q = p then some l else store.logs q }

/-- `JSON.parse` on a stored state blob. -/
def jsonParseState (b : StateBlob) : Except Err TeamState :=
  match b with
  | StateBlob.good s => Except.ok s
  | StateBlob.garbage => Except.error Err.parse

/-- `StateManager.getState(domain)`: the inner read treats not-found as
the lazy-creation path (return the registry's initial state) and rethrows
every other error; the body then parses the content; the outer `catch`
logs the error and returns the registry's initial state.  The GitHub and
local branches coincide under the embedding (404 and `ENOENT` are both
`Err.notFound`). -/
def getState (store : Store) (domain : String) : Except Err TeamState :=
  let inner : Except Err TeamState :=
    match readStateBlob store (getStatePath domain) with
    | Except.error e =>
      if e = Err.notFound then getInitialState domain else Except.error e
    | Except.ok blob => jsonParseState blob
  match inner with
  | Except.ok s => Except.ok s
  | Except.error _ => getInitialState domain

/-- Which backing store `saveState` talks to: the GitHub client when one
is set, the local filesystem otherwise. -/
inductive Backend where
  | github : Backend
  | local : Backend
deriving DecidableEq

/-- The write phase of `StateManager.saveState`, per backend.  With the
GitHub client the state file is updated first and the log file second,
each awaited in turn, so a log-write failure leaves the state already
written.  On the local filesystem the two `fs.writeFile` calls run under
`Promise.all`: both writes are issued regardless of the other's outcome
(the embedding applies every non-faulted write, and the two blobs are
disjoint, so the interleaving is irrelevant to the final contents) and
the call rejects if either write fails. -/
def saveStateWrites (bk : Backend) (store : Store) (statePath logPath : String)
    (state : TeamState) (updatedLog : List ActionLogEntry) : Except Err Unit × Store :=
  match bk with
  | Backend.github =>
    match writeStateBlob store statePath state with
    | Except.error e => (Except.error e, store)
    | Except.ok store1 =>
      match writeLogBlob store1 logPath updatedLog with
      | Except.error e => (Except.error e, store1)
      | Except.ok store2 => (Except.ok (), store2)
  | Backend.local =>
    let store1 :=
      if store.stateWriteFault then store
      else { store with
        states := fun q => if q = statePath then some (StateBlob.good state) else store.states q }
    let store2 :=
      if store.logWriteFault then store1
      else { store1 with
        logs := fun q => if q = logPath then some updatedLog else store1.logs q }
    if store.stateWriteFault || store.logWriteFault then
      (Except.error (Err.storage "write failed"), store2)
    else
      (Except.ok (), store2)

/-- `StateManager.saveState(domain, state, action, context)`, threading
the store: read the current log (not-found → empty), append the new
entry, then persist through `saveStateWrites`. -/
def saveState (bk : Backend) (store : Store) (domain : String) (state : TeamState)
    (action : Action) (context : GitHubContext) : Except Err Unit × Store :=
  let statePath := getStatePath domain
  let logPath := getActionLogPath domain
  let logEntry : ActionLogEntry :=
    { action := action, timestamp := context.timestamp, username := context.username }
  match readLogBlob store logPath with
  | Except.error e =>
    if e = Err.notFound then
      saveStateWrites bk store statePath logPath state ([] ++ [logEntry])
    else
      (Except.error e, store)
  | Except.ok currentLog =>
    saveStateWrites bk store statePath logPath state (currentLog ++ [logEntry])

/-- `StateManager.getActionLog(domain, limit)`: read the log blob
(not-found → empty list), keep the entries in append order, `reverse` for
most-recent-first, `slice(0, limit)`; the outer `catch` returns the empty
list on any other failure. -/
def getActionLog (store : Store) (domain : String) (limit : Nat) : List ActionLogEntry :=
  let inner : Except Err (List ActionLogEntry) :=
    match readLogBlob store (getActionLogPath domain) with
    | Except.error e =>
      if e = Err.notFound then Except.ok [] else Except.error e
    | Except.ok entries => Except.ok (entries.reverse.take limit)
  match inner with
  | Except.ok l => l
  | Except.error _ => []

/-! ## Action dispatcher (`src/lib/dispatcher`, `ActionDispatcher`) -/

/-- `DispatchResult`: `{ success: true, newState }` or
`{ success: false, error }`. -/
inductive DispatchResult where
  | success : TeamState → DispatchResult
  | failure : String → DispatchResult
deriving DecidableEq

/-- Stand-in for `ZodError.toString()` on a failed schema parse; the
dispatcher only ever embeds it in its validation-failure message. -/
def zodErrorString : String := "ZodError"

/-- The `try` block of `ActionDispatcher.dispatch`: validate, load state,
reduce, persist; the pair threads the store so that partial persistence
is observable.  An `Except.error` here is an exception in flight, about
to hit the `catch`. -/
def dispatchTry (bk : Backend) (action : Action) (context : GitHubContext)
    (store : Store) : Except Err DispatchResult × Store :=
  match validateAction action with
  | Except.error e => (Except.error e, store)
  | Except.ok false =>
    (Except.ok (DispatchResult.failure ("Validation failed: " ++ zodErrorString)), store)
  | Except.ok true =>
    match getState store action.domain with
    | Except.error e => (Except.error e, store)
    | Except.ok currentState =>
      match executeAction action currentState context with
      | Except.error e => (Except.error e, store)
      | Except.ok newState =>
        match saveState bk store action.domain newState action context with
        | (Except.error e, store1) => (Except.error e, store1)
        | (Except.ok _, store1) => (Except.ok (DispatchResult.success newState), store1)

/-- `ActionDispatcher.dispatch(action, context)`: the `catch` block turns
every exception escaping the `try` body into
`{ success: false, error: error.message }`, so the function itself never
throws. -/
def dispatch (bk : Backend) (action : Action) (context : GitHubContext)
    (store : Store) : DispatchResult × Store :=
  match dispatchTry bk action context store with
  | (Except.ok r, store1) => (r, store1)
  | (Except.error e, store1) => (DispatchResult.failure (errMessage e), store1)

/-! ## Await structure of `saveState` (for the write-ordering claim)

`saveState` is an `async` function; its temporal behaviour is the
sequence of `await` points.  `saveStatePhases` records the blob
operations of each backend grouped into sequential phases: operations in
one phase are issued concurrently (`Promise.all`), and a phase begins
only after the previous one completed. -/

/-- The blob operations `saveState` performs. -/
inductive StoreOp where
  | readLog : StoreOp
  | writeState : StoreOp
  | writeLog : StoreOp
deriving DecidableEq

/-- The control-flow skeleton of `saveState`: with the GitHub client the
log read, the state write and the log write are three awaited steps in
that order; on the local filesystem the log read is awaited and then both
writes run under one `Promise.all`. -/
def saveStatePhases : Backend → List (List StoreOp)
  | Backend.github => [[StoreOp.readLog], [StoreOp.writeState], [StoreOp.writeLog]]
  | Backend.local => [[StoreOp.readLog], [StoreOp.writeState, StoreOp.writeLog]]

/-- The phase in which an operation runs. -/
def phaseIndexOf (phases : List (List StoreOp)) (op : StoreOp) : Option Nat :=
  phases.findIdx? (fun ph => ph.contains op)

/-- Whether the state write's phase completes before the log write's
phase begins: both occur, and the state write is in a strictly earlier
phase. -/
def stateWriteBeforeLogWrite (phases : List (List StoreOp)) : Bool :=
  match phaseIndexOf phases StoreOp.writeState, phaseIndexOf phases StoreOp.writeLog with
  | some i, some j => decide (i < j)
  | _, _ => false

/-! ## Object identity of the registry's initial state

`DomainRegistry.getInitialState` ends in `return domain.initialState`.
Whether that hands the caller the registry's own object or a copy is a
question of JavaScript object identity, so this model makes references
explicit: a heap of state values addressed by index, and a registry whose
registration records hold the address of their `initialState`. -/

/-- A heap of state objects plus the registry's name-to-address map. -/
structure RegistryHeap where
  cells : List TeamState
  domains : List (String × Nat)
deriving DecidableEq

/-- Dereference an address. -/
def heapGet (h : RegistryHeap) (r : Nat) : Option TeamState :=
  h.cells.get? r

/-- Mutate the object at an address in place (what a caller does to the
value `getInitialState` returned). -/
def heapSet (h : RegistryHeap) (r : Nat) (v : TeamState) : RegistryHeap :=
  { h with cells := h.cells.set r v }

/-- `DomainRegistry.getInitialState` at the object-identity level:
throws for an unregistered name, otherwise returns the very reference
stored in the registration record — `return domain.initialState` performs
no copy. -/
def getInitialStateRef (h : RegistryHeap) (name : String) : Except Err Nat :=
  match h.domains.lookup name with
  | none => Except.error (Err.domainNotFound name)
  | some r => Except.ok r

/-- The spec's version of `getInitialState`, following its words: "returns
the domain's declared zero-state (deep-copied so callers cannot mutate the
registry's canonical copy)" — allocate a fresh cell holding a copy of the
canonical value and return the fresh address. -/
def getInitialStateDeepCopy (h : RegistryHeap) (name : String) :
    Except Err (RegistryHeap × Nat) :=
  match h.domains.lookup name with
  | none => Except.error (Err.domainNotFound name)
  | some r =>
    match heapGet h r with
    | none => Except.error (Err.storage "dangling reference")
    | some v => Except.ok ({ h with cells := h.cells ++ [v] }, h.cells.length)

/-- The registry's canonical initial-state record for a name: the value
its registration's reference points at. -/
def canonicalInitialState (h : RegistryHeap) (name : String) : Option TeamState :=
  match h.domains.lookup name with
  | none => none
  | some r => heapGet h r

/-! ## Shared concrete sample inputs -/

/-- A sample caller context. -/
def sampleCtx : GitHubContext := { username := "alice", timestamp := "ts" }

/-- A store with no blobs and no faults. -/
def emptyStore : Store :=
  { states := fun _ => none
    logs := fun _ => none
    stateReadFault := false
    logReadFault := false
    stateWriteFault := false
    logWriteFault := false }

/-- A sample `CREATE_TEAM` action for team `frontend` with no explicit
owner. -/
def createFrontendA : Action :=
  { domain := "team-management"
    type := "CREATE_TEAM"
    payload := { username := "", teamName := "frontend", description := "FE team", owner := none } }

/-- A sample team named `frontend` owned by `alice`, with the given
member list. -/
def feTeam (ms : List String) : Team :=
  { description := "FE team", owner := "alice", members := ms, createdAt := "ts" }

/-- A sample state holding only the team `frontend` with the given
member list. -/
def feState (ms : List String) : TeamState :=
  { schemaVersion := 1, data := { teams := [("frontend", feTeam ms)] } }

/-- The state `createFrontendA` produces from the initial state under
`sampleCtx`. -/
def frontendState : TeamState := feState ["alice"]

/-- A sample `ADD_TO_TEAM` action. -/
def addA (u t : String) : Action :=
  { domain := "team-management"
    type := "ADD_TO_TEAM"
    payload := { username := u, teamName := t, description := "", owner := none } }

/-- A sample `CREATE_TEAM` action. -/
def createA (t d : String) (o : Option String) : Action :=
  { domain := "team-management"
    type := "CREATE_TEAM"
    payload := { username := "", teamName := t, description := d, owner := o } }

/-- A sample action whose `type` no reducer case recognizes. -/
def unknownA : Action :=
  { domain := "team-management"
    type := "UNKNOWN_ACTION"
    payload := { username := "bob", teamName := "frontend", description := "", owner := none } }

/-- A sample log entry recording that user `u` was added to team `t` at
time `ts`. -/
def sampleEntry (u ts : String) : ActionLogEntry :=
  { action := addA u "t", timestamp := ts, username := u }

/-- A sample three-entry log in append order. -/
def sampleLog : List ActionLogEntry :=
  [sampleEntry "a" "t1", sampleEntry "b" "t2", sampleEntry "c" "t3"]

/-- A store whose only blob is the log `sampleLog` for
`team-management`. -/
def sampleLogStore : Store :=
  { emptyStore with logs := fun q =>
      if q = getActionLogPath "team-management" then some sampleLog else none }

/-- A store whose only blob is a state file for `team-management`
holding `feState ["alice"]`. -/
def feStateStore : Store :=
  { emptyStore with states := fun q =>
      if q = getStatePath "team-management" then some (StateBlob.good (feState ["alice"]))
      else none }

/-- A sample action addressed to a domain no one registered. -/
def otherDomainA : Action :=
  { domain := "other-domain"
    type := "CREATE_TEAM"
    payload := { username := "", teamName := "t", description := "d", owner := none } }

/-- A sample registry heap: cell 0 holds `initialState` and the
`team-management` registration points at it. -/
def regHeap0 : RegistryHeap :=
  { cells := [initialState], domains := [("team-management", 0)] }

/-- The heap `getInitialStateDeepCopy` produces from `regHeap0`: a fresh
cell 1 holding a copy of the canonical initial state. -/
def regHeap1 : RegistryHeap :=
  { cells := [initialState, initialState], domains := [("team-management", 0)] }

/-! ## Helper lemmas -/

/-- Looking up a key other than the updated one is unaffected by the
JavaScript spread update. -/
theorem lookupTeam_setTeam_ne (ts : List (String × Team)) (k n : String) (t : Team)
    (h : n ≠ k) : lookupTeam (setTeam ts k t) n = lookupTeam ts n := by
  have hbn : (n == k) = false := beq_eq_false_iff_ne.mpr h
  unfold setTeam lookupTeam
  by_cases hk : ts.any (fun p => p.1 = k)
  · rw [if_pos hk]
    clear hk
    induction ts with
    | nil => rfl
    | cons p ts ih =>
      rcases p with ⟨a, b⟩
      by_cases ha : a = k
      · subst ha
        rw [List.map_cons, show (if (a, b).1 = a then (a, t) else (a, b)) = (a, t) from if_pos rfl]
        simp [List.lookup, hbn, ih]
      · rw [List.map_cons, show (if (a, b).1 = k then (k, t) else (a, b)) = (a, b) from if_neg ha]
        cases hna : n == a <;> simp [List.lookup, hna, ih]
  · rw [if_neg hk]
    clear hk
    induction ts with
    | nil => simp [List.lookup, hbn]
    | cons p ts ih =>
      rcases p with ⟨a, b⟩
      cases hna : n == a <;> simp [List.lookup, hna, ih]

/-! ## Claim C6 -/

/-- Claim C6 (confirmed): for every state whose teams contain a team T
with user U among its members, and every context, `reduce` applied to
`ADD_TO_TEAM` with payload `{username: U, teamName: T}` returns a state
equal by value to the input state; if T is absent it fails with a
`DomainError`, and if U is not yet a member it appends U to T's member
sequence. -/
theorem add_to_team_spec (s : TeamState) (a : Action) (c : GitHubContext)
    (ht : a.type = "ADD_TO_TEAM") :
    (∀ team, lookupTeam s.data.teams a.payload.teamName = some team →
      team.members.contains a.payload.username = true →
      reduce s a c = Except.ok s) ∧
    (lookupTeam s.data.teams a.payload.teamName = none →
      reduce s a c =
        Except.error (Err.domainError ("Team " ++ a.payload.teamName ++ " does not exist"))) ∧
    (∀ team, lookupTeam s.data.teams a.payload.teamName = some team →
      team.members.contains a.payload.username = false →
      reduce s a c = Except.ok { s with data := { s.data with
        teams := setTeam s.data.teams a.payload.teamName
          { team with members := team.members ++ [a.payload.username] } } }) := by
  refine ⟨?_, ?_, ?_⟩
  · intro team hl hm
    have hm1 : a.payload.username ∈ team.members := by simpa using hm
    simp [reduce, ht, hl, hm1]
  · intro hl
    simp [reduce, ht, hl]
  · intro team hl hm
    have hm1 : a.payload.username ∉ team.members := by simpa using hm
    simp [reduce, ht, hl, hm1]

/-- Witness for C6: on a team `frontend` with members `["alice", "bob"]`,
adding `bob` again is the identity, adding to the absent team `backend`
fails with the domain error, and adding `carol` appends her. -/
theorem add_to_team_spec_witness :
    reduce (feState ["alice", "bob"]) (addA "bob" "frontend") sampleCtx =
      Except.ok (feState ["alice", "bob"]) ∧
    reduce (feState ["alice", "bob"]) (addA "bob" "backend") sampleCtx =
      Except.error (Err.domainError "Team backend does not exist") ∧
    reduce (feState ["alice", "bob"]) (addA "carol" "frontend") sampleCtx =
      Except.ok (feState ["alice", "bob", "carol"]) :=
  ⟨(add_to_team_spec _ _ _ rfl).1 (feTeam ["alice", "bob"]) rfl rfl,
   (add_to_team_spec _ _ _ rfl).2.1 rfl,
   (add_to_team_spec _ _ _ rfl).2.2 (feTeam ["alice", "bob"]) rfl rfl⟩

/-! ## Claim C5 -/

/-- Counterexample to C5 as stated: a `CREATE_TEAM` whose payload
specifies `owner: ""` does not create a team owned by `""` — JavaScript's
`owner || context.username` treats the empty string as falsy, so the
created team is owned by the invoking user `alice` instead of the
specified owner. -/
theorem create_team_empty_owner_fallback :
    (createA "t" "d" (some "")).payload.owner = some "" ∧
    reduce initialState (createA "t" "d" (some "")) sampleCtx =
      Except.ok { schemaVersion := 1, data := { teams :=
        [("t", { description := "d", owner := "alice", members := ["alice"],
                 createdAt := "ts" })] } } ∧
    ("alice" : String) ≠ "" :=
  ⟨rfl, rfl, by decide⟩

/-- Claim C5 (amended): for every state and context, `reduce` applied to
a `CREATE_TEAM` action fails with a `DomainError` when
`payload.teamName` already exists in `state.data.teams`; otherwise it
creates that team with owner equal to `payload.owner` when that is
specified and non-empty and `context.username` otherwise (JavaScript
falsy fallback), members equal to exactly `[owner]`, description equal
to `payload.description`, and `createdAt` equal to
`context.timestamp`. -/
theorem create_team_spec (s : TeamState) (a : Action) (c : GitHubContext)
    (ht : a.type = "CREATE_TEAM") :
    (∀ team, lookupTeam s.data.teams a.payload.teamName = some team →
      reduce s a c =
        Except.error (Err.domainError ("Team " ++ a.payload.teamName ++ " already exists"))) ∧
    (lookupTeam s.data.teams a.payload.teamName = none →
      reduce s a c = Except.ok { s with data := { s.data with
        teams := setTeam s.data.teams a.payload.teamName
          { description := a.payload.description
            owner := actualOwnerOf a.payload.owner c.username
            members := [actualOwnerOf a.payload.owner c.username]
            createdAt := c.timestamp } } }) := by
  constructor
  · intro team hl
    simp [reduce, ht, hl]
  · intro hl
    simp [reduce, ht, hl]

/-- Witness for C5: creating `frontend` when it already exists fails with
the domain error; creating team `t` with no owner on the empty state
creates it owned by the caller `alice` with `members = ["alice"]`. -/
theorem create_team_spec_witness :
    reduce (feState ["alice"]) (createA "frontend" "dup" none) sampleCtx =
      Except.error (Err.domainError "Team frontend already exists") ∧
    reduce initialState (createA "t" "d" none) sampleCtx =
      Except.ok { schemaVersion := 1, data := { teams :=
        [("t", { description := "d", owner := "alice", members := ["alice"],
                 createdAt := "ts" })] } } :=
  ⟨(create_team_spec _ _ _ rfl).1 (feTeam ["alice"]) rfl,
   (create_team_spec _ _ _ rfl).2 rfl⟩

/-! ## Claim C10 -/

/-- Claim C10 (confirmed): whenever the team-management `reduce` returns
a state without throwing, that state has the same `schemaVersion` as the
input state, and every team whose name differs from
`action.payload.teamName` is mapped to exactly the same value as in the
input state. -/
theorem reduce_frame (s : TeamState) (a : Action) (c : GitHubContext) (s1 : TeamState)
    (h : reduce s a c = Except.ok s1) :
    s1.schemaVersion = s.schemaVersion ∧
    ∀ n, n ≠ a.payload.teamName →
      lookupTeam s1.data.teams n = lookupTeam s.data.teams n := by
  unfold reduce at h
  dsimp only [] at h
  split at h
  · split at h
    · exact Except.noConfusion h
    · split at h
      · cases h
        exact ⟨rfl, fun n hn => rfl⟩
      · cases h
        exact ⟨rfl, fun n hn => lookupTeam_setTeam_ne _ _ _ _ hn⟩
  · split at h
    · split at h
      · exact Except.noConfusion h
      · split at h
        · cases h
          exact ⟨rfl, fun n hn => lookupTeam_setTeam_ne _ _ _ _ hn⟩
        · cases h
          exact ⟨rfl, fun n hn => rfl⟩
    · split at h
      · split at h
        · exact Except.noConfusion h
        · cases h
          exact ⟨rfl, fun n hn => lookupTeam_setTeam_ne _ _ _ _ hn⟩
      · split at h
        · split at h
          · exact Except.noConfusion h
          · cases h
            exact ⟨rfl, fun n hn => lookupTeam_setTeam_ne _ _ _ _ hn⟩
        · cases h
          exact ⟨rfl, fun n hn => rfl⟩

/-- Witness for C10: adding `carol` to `frontend` leaves the lookup of
any other team name, here `backend`, untouched, and keeps
`schemaVersion` at `1`. -/
theorem reduce_frame_witness :
    (feState ["alice", "bob", "carol"]).schemaVersion = (feState ["alice", "bob"]).schemaVersion ∧
    lookupTeam (feState ["alice", "bob", "carol"]).data.teams "backend" =
      lookupTeam (feState ["alice", "bob"]).data.teams "backend" :=
  ⟨(reduce_frame (feState ["alice", "bob"]) (addA "carol" "frontend") sampleCtx
      (feState ["alice", "bob", "carol"]) rfl).1,
   (reduce_frame (feState ["alice", "bob"]) (addA "carol" "frontend") sampleCtx
      (feState ["alice", "bob", "carol"]) rfl).2 "backend" (by decide)⟩

/-! ## Claim C4 -/

/-- Counterexample to C4 as stated: dispatching a shape-valid action on
the registered domain `team-management` whose `type` the reducer does not
recognize does not return `{success:true}` — the zod discriminated union
`TeamActionSchema` rejects the unknown tag first, so `dispatch` returns a
validation failure. -/
theorem dispatch_unknown_type_fails_validation :
    (dispatch Backend.local unknownA sampleCtx emptyStore).1 =
      DispatchResult.failure ("Validation failed: " ++ zodErrorString) ∧
    (dispatch Backend.local unknownA sampleCtx emptyStore).1 ≠
      DispatchResult.success initialState :=
  ⟨rfl, by decide⟩

/-- Claim C4 (amended): for every action on `team-management` whose
`type` the reducer does not recognize, `reduce` itself returns the input
state unchanged without error, but a full `dispatch` of such an action
never reaches the reducer: the domain's action schema (a closed
discriminated union over the four known types) rejects it, so `dispatch`
returns `{success:false}` with a validation error and touches no
state. -/
theorem unknown_type_reducer_noop_dispatch_rejects (s : TeamState) (a : Action)
    (c : GitHubContext) (store : Store) (bk : Backend)
    (hd : a.domain = "team-management")
    (ht : validTeamActionType a.type = false) :
    reduce s a c = Except.ok s ∧
    (dispatch bk a c store).1 =
      DispatchResult.failure ("Validation failed: " ++ zodErrorString) ∧
    (dispatch bk a c store).2 = store := by
  have hts : ((¬a.type = "ADD_TO_TEAM" ∧ ¬a.type = "REMOVE_FROM_TEAM") ∧
      ¬a.type = "CREATE_TEAM") ∧ ¬a.type = "UPDATE_TEAM_DESCRIPTION" := by
    simpa [validTeamActionType] using ht
  obtain ⟨⟨⟨ht1, ht2⟩, ht3⟩, ht4⟩ := hts
  refine ⟨?_, ?_⟩
  · simp [reduce, ht1, ht2, ht3, ht4]
  · simp [dispatch, dispatchTry, validateAction, hasDomain, registeredDomains, hd, ht]

/-- Witness for C4 (amended): the reducer maps `unknownA` to the
unchanged initial state, while dispatching it fails validation and leaves
the store untouched. -/
theorem unknown_type_reducer_noop_dispatch_rejects_witness :
    reduce initialState unknownA sampleCtx = Except.ok initialState ∧
    (dispatch Backend.github unknownA sampleCtx emptyStore).1 =
      DispatchResult.failure ("Validation failed: " ++ zodErrorString) ∧
    (dispatch Backend.github unknownA sampleCtx emptyStore).2 = emptyStore :=
  unknown_type_reducer_noop_dispatch_rejects initialState unknownA sampleCtx emptyStore
    Backend.github rfl rfl

/-! ## Claim C2 -/

/-- Counterexample to C2 as stated: a read failure that is not "missing"
(an injected storage fault), and likewise unparseable stored content, do
not propagate an error from `getState` — its outer `catch` swallows every
failure and returns the registry's initial state. -/
theorem getState_swallows_storage_fault :
    { emptyStore with stateReadFault := true }.stateReadFault = true ∧
    getState { emptyStore with stateReadFault := true } "team-management" =
      Except.ok initialState ∧
    getState { emptyStore with states := fun _ => some StateBlob.garbage } "team-management" =
      Except.ok initialState :=
  ⟨rfl, rfl, rfl⟩

/-- Claim C2 (amended): for the registered domain, `getState` returns
the registry's initial state when the state blob is absent (the
lazy-creation path) — and also on every other read failure: a storage
fault or unparseable stored content is caught by the outer handler and
likewise yields the initial state, never a propagated error; only a
well-formed stored blob is returned as-is. -/
theorem getState_behavior (store : Store) (s : TeamState) :
    (store.stateReadFault = false →
      store.states (getStatePath "team-management") = none →
      getState store "team-management" = Except.ok initialState) ∧
    (store.stateReadFault = true →
      getState store "team-management" = Except.ok initialState) ∧
    (store.stateReadFault = false →
      store.states (getStatePath "team-management") = some StateBlob.garbage →
      getState store "team-management" = Except.ok initialState) ∧
    (store.stateReadFault = false →
      store.states (getStatePath "team-management") = some (StateBlob.good s) →
      getState store "team-management" = Except.ok s) := by
  refine ⟨?_, ?_, ?_, ?_⟩
  · intro hf hb
    simp [getState, readStateBlob, hf, hb, getInitialState, hasDomain, registeredDomains]
  · intro hf
    simp [getState, readStateBlob, hf, getInitialState, hasDomain, registeredDomains]
  · intro hf hb
    simp [getState, readStateBlob, hf, hb, jsonParseState, getInitialState, hasDomain,
      registeredDomains]
  · intro hf hb
    simp [getState, readStateBlob, hf, hb, jsonParseState]

/-- Witness for C2 (amended): an empty fault-free store yields the
initial state, a faulted store yields the initial state, a garbage blob
yields the initial state, and a stored `frontendState` is returned
as-is. -/
theorem getState_behavior_witness :
    getState emptyStore "team-management" = Except.ok initialState ∧
    getState { emptyStore with stateReadFault := true } "team-management" =
      Except.ok initialState ∧
    getState { emptyStore with states := fun _ => some StateBlob.garbage } "team-management" =
      Except.ok initialState ∧
    getState { emptyStore with states := fun _ => some (StateBlob.good frontendState) }
      "team-management" = Except.ok frontendState :=
  ⟨(getState_behavior emptyStore initialState).1 rfl rfl,
   (getState_behavior { emptyStore with stateReadFault := true } initialState).2.1 rfl,
   (getState_behavior { emptyStore with states := fun _ => some StateBlob.garbage }
     initialState).2.2.1 rfl rfl,
   (getState_behavior { emptyStore with states := fun _ => some (StateBlob.good frontendState) }
     frontendState).2.2.2 rfl rfl⟩

/-! ## Claim C8 -/

/-- Claim C8 (confirmed): for every domain and limit `k`, `getActionLog`
returns the most recent `k` entries of the domain's log in
most-recent-first order — the reverse of append order truncated to
`k` — and returns the empty sequence when the log blob is absent. -/
theorem getActionLog_spec (store : Store) (d : String) (k : Nat) (l : List ActionLogEntry)
    (hf : store.logReadFault = false) :
    (store.logs (getActionLogPath d) = some l →
      getActionLog store d k = l.reverse.take k) ∧
    (store.logs (getActionLogPath d) = none →
      getActionLog store d k = []) := by
  constructor
  · intro hb
    simp [getActionLog, readLogBlob, hf, hb]
  · intro hb
    simp [getActionLog, readLogBlob, hf, hb]

/-- Witness for C8: on a log of three entries appended in order, the two
most recent come back newest-first; an absent log yields `[]`. -/
theorem getActionLog_spec_witness :
    getActionLog sampleLogStore "team-management" 2 =
      [sampleEntry "c" "t3", sampleEntry "b" "t2"] ∧
    getActionLog emptyStore "team-management" 2 = [] :=
  ⟨(getActionLog_spec sampleLogStore "team-management" 2 sampleLog rfl).1 rfl,
   (getActionLog_spec emptyStore "team-management" 2 [] rfl).2 rfl⟩

/-- A successful `saveState` (no write fault, no log-read fault) on
either backend writes the new state blob and appends exactly one entry to
the log blob, leaving every other path untouched. -/
theorem saveState_ok_effects (bk : Backend) (store : Store) (d : String) (s : TeamState)
    (a : Action) (c : GitHubContext)
    (hsw : store.stateWriteFault = false) (hlw : store.logWriteFault = false)
    (hlr : store.logReadFault = false) :
    saveState bk store d s a c =
      (Except.ok (), { store with
        states := fun q => if q = getStatePath d then some (StateBlob.good s) else store.states q
        logs := fun q =>
          if q = getActionLogPath d then
            some (((store.logs (getActionLogPath d)).getD []) ++
              [{ action := a, timestamp := c.timestamp, username := c.username }])
          else store.logs q }) := by
  unfold saveState readLogBlob saveStateWrites writeStateBlob writeLogBlob
  rcases hb : store.logs (getActionLogPath d) with _ | l <;>
    cases bk <;>
      simp [hsw, hlw, hlr, hb]

/-! ## Claim C3 -/

/-- Counterexample to C3 as stated: on the local-filesystem backend the
state write does not complete before the log write begins — the two
writes run in the same `Promise.all` phase — and concretely, when the
state write fails and the log write succeeds, `saveState` leaves a log
entry recorded for a state that was never persisted. -/
theorem local_saveState_unordered :
    stateWriteBeforeLogWrite (saveStatePhases Backend.local) = false ∧
    (saveState Backend.local { emptyStore with stateWriteFault := true } "team-management"
        frontendState createFrontendA sampleCtx).2.logs
        (getActionLogPath "team-management") =
      some [{ action := createFrontendA, timestamp := "ts", username := "alice" }] ∧
    (saveState Backend.local { emptyStore with stateWriteFault := true } "team-management"
        frontendState createFrontendA sampleCtx).2.states
        (getStatePath "team-management") = none :=
  ⟨rfl, rfl, rfl⟩

/-- Claim C3 (amended): with the GitHub client, `saveState` awaits the
state-file update before starting the log-file update, so the log blob
can only change once the new state blob is persisted; on the
local-filesystem backend the two writes are issued concurrently under
`Promise.all` with no ordering guarantee, so a crash or partial failure
can record a log entry for a state that was never persisted. -/
theorem saveState_write_ordering :
    stateWriteBeforeLogWrite (saveStatePhases Backend.github) = true ∧
    stateWriteBeforeLogWrite (saveStatePhases Backend.local) = false ∧
    ∀ store d s a c,
      (saveState Backend.github store d s a c).2.logs (getActionLogPath d) ≠
          store.logs (getActionLogPath d) →
        (saveState Backend.github store d s a c).2.states (getStatePath d) =
          some (StateBlob.good s) := by
  have key : ∀ (store : Store) (sp lp : String) (s : TeamState) (ul : List ActionLogEntry),
      (saveStateWrites Backend.github store sp lp s ul).2.logs lp ≠ store.logs lp →
      (saveStateWrites Backend.github store sp lp s ul).2.states sp =
        some (StateBlob.good s) := by
    intro store sp lp s ul
    unfold saveStateWrites writeStateBlob writeLogBlob
    by_cases hsw : store.stateWriteFault <;> by_cases hlw : store.logWriteFault <;>
      simp [hsw, hlw]
  refine ⟨rfl, rfl, ?_⟩
  intro store d s a c h
  unfold saveState at h ⊢
  dsimp only [] at h ⊢
  rcases hr : readLogBlob store (getActionLogPath d) with e | cur <;>
    rw [hr] at h <;> dsimp only [] at h ⊢
  · by_cases hn : e = Err.notFound
    · subst hn
      simp only [reduceIte] at h ⊢
      exact key _ _ _ _ _ h
    · rw [if_neg hn] at h
      exact absurd rfl h
  · exact key _ _ _ _ _ h

/-- Witness for C3 (amended): a successful GitHub-backend save on the
empty store changes the log blob, and indeed the state blob then holds
the new state. -/
theorem saveState_write_ordering_witness :
    (saveState Backend.github emptyStore "team-management" frontendState createFrontendA
        sampleCtx).2.states (getStatePath "team-management") =
      some (StateBlob.good frontendState) :=
  saveState_write_ordering.2.2 emptyStore "team-management" frontendState createFrontendA
    sampleCtx (by decide)

/-! ## Claim C9 -/

/-- Counterexample to C9 as stated: `getInitialState` does not deep-copy.
On a registry heap whose `team-management` registration points at cell 0
holding `initialState`, the returned reference is cell 0 itself, and
mutating the returned value (writing `frontendState` through that
reference) changes the registry's canonical initial-state record. -/
theorem getInitialState_alias_mutation :
    getInitialStateRef { cells := [initialState], domains := [("team-management", 0)] }
      "team-management" = Except.ok 0 ∧
    canonicalInitialState { cells := [initialState], domains := [("team-management", 0)] }
      "team-management" = some initialState ∧
    canonicalInitialState
      (heapSet { cells := [initialState], domains := [("team-management", 0)] } 0 frontendState)
      "team-management" = some frontendState ∧
    frontendState ≠ initialState :=
  ⟨rfl, rfl, rfl, by decide⟩

/-- Claim C9 (amended): for every registered domain name,
`getInitialState` fails with the domain-not-found error when the name is
unregistered, and otherwise returns the registry's stored initial-state
object itself — `return domain.initialState` makes no copy — so mutating
the returned value does change the registry's canonical initial-state
record; the spec-worded deep-copying variant would instead leave the
canonical record untouched under the same mutation. -/
theorem getInitialState_reference_semantics (h : RegistryHeap) (name : String) (r : Nat)
    (v : TeamState) :
    (h.domains.lookup name = none →
      getInitialStateRef h name = Except.error (Err.domainNotFound name)) ∧
    (h.domains.lookup name = some r →
      getInitialStateRef h name = Except.ok r ∧
      canonicalInitialState (heapSet h r v) name = (heapSet h r v).cells.get? r) ∧
    (h.domains.lookup name = some r → r < h.cells.length →
      ∀ h1 r1, getInitialStateDeepCopy h name = Except.ok (h1, r1) →
        canonicalInitialState (heapSet h1 r1 v) name = canonicalInitialState h name) := by
  refine ⟨?_, ?_, ?_⟩
  · intro hl
    simp [getInitialStateRef, hl]
  · intro hl
    refine ⟨by simp [getInitialStateRef, hl], ?_⟩
    simp [canonicalInitialState, heapSet, hl, heapGet]
  · intro hl hr h1 r1 hdc
    have hget : heapGet h r = some (h.cells.get ⟨r, hr⟩) := by
      simp [heapGet, List.get?_eq_getElem?, List.getElem?_eq_getElem hr, List.get_eq_getElem]
    unfold getInitialStateDeepCopy at hdc
    rw [hl] at hdc
    dsimp only [] at hdc
    rw [hget] at hdc
    dsimp only [] at hdc
    have hh1 : h1 = { h with cells := h.cells ++ [h.cells.get ⟨r, hr⟩] } := by
      cases hdc
      rfl
    have hr1 : r1 = h.cells.length := by
      cases hdc
      rfl
    subst hh1
    subst hr1
    have hne : r ≠ h.cells.length := Nat.ne_of_lt hr
    simp only [canonicalInitialState, heapSet, heapGet, hl]
    rw [List.get?_eq_getElem?, List.get?_eq_getElem?, List.getElem?_set_ne hne.symm,
      List.getElem?_append_left hr]

/-- Witness for C9 (amended): on the sample heap, an unregistered name
fails; the `team-management` lookup returns the stored reference 0, and
writing `frontendState` through it changes the canonical record; under
the spec-worded deep copy the same mutation leaves the canonical record
untouched. -/
theorem getInitialState_reference_semantics_witness :
    getInitialStateRef regHeap0 "missing-domain" =
      Except.error (Err.domainNotFound "missing-domain") ∧
    (getInitialStateRef regHeap0 "team-management" = Except.ok 0 ∧
      canonicalInitialState (heapSet regHeap0 0 frontendState) "team-management" =
        (heapSet regHeap0 0 frontendState).cells.get? 0) ∧
    canonicalInitialState (heapSet regHeap1 1 frontendState) "team-management" =
      canonicalInitialState regHeap0 "team-management" :=
  ⟨(getInitialState_reference_semantics regHeap0 "missing-domain" 0 frontendState).1 rfl,
   (getInitialState_reference_semantics regHeap0 "team-management" 0 frontendState).2.1 rfl,
   (getInitialState_reference_semantics regHeap0 "team-management" 0 frontendState).2.2 rfl
     (by decide) regHeap1 1 rfl⟩

/-! ## Claim C1 -/

/-- Counterexample to C1 as stated: with the GitHub backend, a log-write
failure after the state write makes `dispatch` return `{success:false}`
even though the state blob was already written — `getState` afterwards
returns the new state, not the pre-dispatch persisted state, so a failure
path is not write-free. -/
theorem dispatch_failure_can_leave_partial_write :
    (dispatch Backend.github createFrontendA sampleCtx
        { emptyStore with logWriteFault := true }).1 =
      DispatchResult.failure "log write failed" ∧
    { emptyStore with logWriteFault := true }.states (getStatePath "team-management") = none ∧
    (dispatch Backend.github createFrontendA sampleCtx
        { emptyStore with logWriteFault := true }).2.states (getStatePath "team-management") =
      some (StateBlob.good frontendState) ∧
    getState (dispatch Backend.github createFrontendA sampleCtx
        { emptyStore with logWriteFault := true }).2 "team-management" =
      Except.ok frontendState ∧
    getState { emptyStore with logWriteFault := true } "team-management" =
      Except.ok initialState :=
  ⟨rfl, rfl, rfl, rfl, rfl⟩

/-- Claim C1 (amended): when the backing store's writes themselves do
not fail, every `dispatch` that returns `{success:false}` (validation
failure, reducer `DomainError`, unregistered domain, or a log-read
fault) leaves the store exactly as it was — no state write and no log
append — and every `dispatch` that returns `{success:true}` performs
exactly one state write and exactly one log append for the action's
domain and touches nothing else.  (When a write inside `saveState`
itself fails, `dispatch` still returns `{success:false}` but a partial
write can remain, per the counterexample.) -/
theorem dispatch_write_effects (bk : Backend) (a : Action) (c : GitHubContext) (store : Store)
    (hsw : store.stateWriteFault = false) (hlw : store.logWriteFault = false) :
    (∀ m store1, dispatch bk a c store = (DispatchResult.failure m, store1) →
      store1 = store) ∧
    (∀ s store1, dispatch bk a c store = (DispatchResult.success s, store1) →
      store1.states (getStatePath a.domain) = some (StateBlob.good s) ∧
      store1.logs (getActionLogPath a.domain) =
        some (((store.logs (getActionLogPath a.domain)).getD []) ++
          [{ action := a, timestamp := c.timestamp, username := c.username }]) ∧
      (∀ q, q ≠ getStatePath a.domain → store1.states q = store.states q) ∧
      (∀ q, q ≠ getActionLogPath a.domain → store1.logs q = store.logs q)) := by
  unfold dispatch dispatchTry
  rcases hva : validateAction a with e | b
  · refine ⟨fun m store1 heq => ?_, fun s store1 heq => ?_⟩
    · try dsimp only [] at heq
      injection heq with h1 h2
      exact h2.symm
    · try dsimp only [] at heq
      injection heq with h1 h2
      exact DispatchResult.noConfusion h1
  · cases b
    · refine ⟨fun m store1 heq => ?_, fun s store1 heq => ?_⟩
      · try dsimp only [] at heq
        injection heq with h1 h2
        exact h2.symm
      · try dsimp only [] at heq
        injection heq with h1 h2
        exact DispatchResult.noConfusion h1
    · rcases hgs : getState store a.domain with e | cur <;> dsimp only [] at *
      · refine ⟨fun m store1 heq => ?_, fun s store1 heq => ?_⟩
        · try dsimp only [] at heq
          injection heq with h1 h2
          exact h2.symm
        · try dsimp only [] at heq
          injection heq with h1 h2
          exact DispatchResult.noConfusion h1
      · rcases hex : executeAction a cur c with e | ns <;> dsimp only [] at *
        · refine ⟨fun m store1 heq => ?_, fun s store1 heq => ?_⟩
          · try dsimp only [] at heq
            injection heq with h1 h2
            exact h2.symm
          · try dsimp only [] at heq
            injection heq with h1 h2
            exact DispatchResult.noConfusion h1
        · by_cases hlr : store.logReadFault = true
          · have hsv : saveState bk store a.domain ns a c =
                (Except.error (Err.storage "log read failed"), store) := by
              unfold saveState readLogBlob
              simp [hlr]
            refine ⟨fun m store1 heq => ?_, fun s store1 heq => ?_⟩
            · rw [hsv] at heq
              try dsimp only [] at heq
              injection heq with h1 h2
              exact h2.symm
            · rw [hsv] at heq
              try dsimp only [] at heq
              injection heq with h1 h2
              exact DispatchResult.noConfusion h1
          · have hlr1 : store.logReadFault = false := by
              simpa using hlr
            have hsv := saveState_ok_effects bk store a.domain ns a c hsw hlw hlr1
            refine ⟨fun m store1 heq => ?_, fun s store1 heq => ?_⟩
            · rw [hsv] at heq
              try dsimp only [] at heq
              injection heq with h1 h2
              exact DispatchResult.noConfusion h1
            · rw [hsv] at heq
              try dsimp only [] at heq
              injection heq with h1 h2
              injection h1 with h1
              subst h1
              subst h2
              refine ⟨by simp, by simp, fun q hq => by simp [hq], fun q hq => by simp [hq]⟩

/-- Witness for C1 (amended): on the fault-free empty store, dispatching
`createFrontendA` succeeds and the resulting store holds exactly the new
state blob and a one-entry log; dispatching the invalid `unknownA` fails
and returns the store unchanged. -/
theorem dispatch_write_effects_witness :
    (dispatch Backend.local createFrontendA sampleCtx emptyStore).2.states
        (getStatePath "team-management") = some (StateBlob.good frontendState) ∧
    (dispatch Backend.local createFrontendA sampleCtx emptyStore).2.logs
        (getActionLogPath "team-management") =
      some [{ action := createFrontendA, timestamp := "ts", username := "alice" }] ∧
    (dispatch Backend.local unknownA sampleCtx emptyStore).2 = emptyStore :=
  ⟨((dispatch_write_effects Backend.local createFrontendA sampleCtx emptyStore rfl rfl).2
      frontendState _ rfl).1,
   ((dispatch_write_effects Backend.local createFrontendA sampleCtx emptyStore rfl rfl).2
      frontendState _ rfl).2.1,
   (dispatch_write_effects Backend.local unknownA sampleCtx emptyStore rfl rfl).1
      ("Validation failed: " ++ zodErrorString) _ rfl⟩

/-! ## Claim C7 -/

/-- Claim C7 (confirmed): `dispatch` is total over its result type —
for every backend, action, context and store it returns either
`{success:true, newState}` or `{success:false, error}`, never throwing
past its own boundary; in particular an unregistered domain (where
`validateAction` throws) is caught and converted to
`{success:false, error: "Domain ... not found"}` with the store
untouched, and a reducer exception or storage failure likewise surfaces
as a `failure` result via the `catch` block's `errMessage`. -/
theorem dispatch_never_throws (bk : Backend) (a : Action) (c : GitHubContext) (store : Store) :
    ((∃ s, (dispatch bk a c store).1 = DispatchResult.success s) ∨
      (∃ m, (dispatch bk a c store).1 = DispatchResult.failure m)) ∧
    (hasDomain a.domain = false →
      dispatch bk a c store =
        (DispatchResult.failure ("Domain " ++ a.domain ++ " not found"), store)) ∧
    (∀ e st1, dispatchTry bk a c store = (Except.error e, st1) →
      dispatch bk a c store = (DispatchResult.failure (errMessage e), st1)) := by
  refine ⟨?_, ?_, ?_⟩
  · cases hres : (dispatch bk a c store).1 with
    | success s => exact Or.inl ⟨s, rfl⟩
    | failure m => exact Or.inr ⟨m, rfl⟩
  · intro hd
    simp [dispatch, dispatchTry, validateAction, hd, errMessage]
  · intro e st1 htry
    simp [dispatch, htry]

/-- Witness for C7: dispatching to the unregistered domain
`other-domain` does not throw — it returns the converted
`DomainNotFound` failure and the untouched store — and a concrete
reducer exception (`CREATE_TEAM` on an existing team) comes back as a
`failure` result carrying the thrown message. -/
theorem dispatch_never_throws_witness :
    dispatch Backend.local otherDomainA sampleCtx emptyStore =
      (DispatchResult.failure "Domain other-domain not found", emptyStore) ∧
    dispatch Backend.local (createA "frontend" "dup" none) sampleCtx feStateStore =
      (DispatchResult.failure "Team frontend already exists", feStateStore) :=
  ⟨(dispatch_never_throws Backend.local otherDomainA sampleCtx emptyStore).2.1 rfl,
   (dispatch_never_throws Backend.local (createA "frontend" "dup" none) sampleCtx
       feStateStore).2.2 (Err.domainError "Team frontend already exists") feStateStore rfl⟩

end ActionLLM
